import Mathlib

/-!
Shallow embedding of the data-acquisition core of `mpk-rs`
(`src/clients/sims.rs` and `src/clients/mpk_wroc.rs`).

JSON values are modelled by an inductive `Json`; numeric leaves are
modelled as `Int` (the record fields typed `f32` in the source carry their
JSON number verbatim and no arithmetic is ever performed on them).
Network and clock effects are passed in as explicit function parameters.
Rust `Result` is modelled by `Except`; serde decode errors are `String`s.
-/

namespace MpkRs

/-- A JSON value. Numbers are modelled as integers: the decoders under
verification only range-check or store them, never compute with them. -/
inductive Json where
  | null : Json
  | bool (b : Bool) : Json
  | num (n : Int) : Json
  | str (s : String) : Json
  | arr (elems : List Json) : Json
  | obj (fields : List (String × Json)) : Json

/-- serde decode of a Rust `String` from a JSON value. -/
def decodeString : Json → Except String String
  | .str s => .ok s
  | _ => .error "invalid type: expected a string"

/-- serde decode of a Rust `i32` from a JSON value (range-checked). -/
def decodeI32 : Json → Except String Int
  | .num n =>
      if -2147483648 ≤ n ∧ n ≤ 2147483647 then .ok n
      else .error "invalid value: integer out of range for i32"
  | _ => .error "invalid type: expected i32"

/-- serde decode of a Rust `f32` from a JSON value: any JSON number is
accepted (serde_json converts numbers to floats without failing). -/
def decodeF32 : Json → Except String Int
  | .num n => .ok n
  | _ => .error "invalid type: expected f32"

/-- Enum `VehicleType` from `mpk_wroc.rs`: `rename_all = "UPPERCASE"` with
single-letter aliases `b` and `t` on the variants. -/
inductive VehicleType where
  | Bus : VehicleType
  | Tram : VehicleType
deriving DecidableEq, Repr

/-- serde decode of `VehicleType`: accepts `"BUS"`/`"b"` and `"TRAM"`/`"t"`. -/
def decodeVehicleType : Json → Except String VehicleType
  | .str s =>
      if s = "BUS" ∨ s = "b" then .ok .Bus
      else if s = "TRAM" ∨ s = "t" then .ok .Tram
      else .error "unknown variant for enum VehicleType"
  | _ => .error "invalid type: expected a string for enum VehicleType"

/-- The `Bus` record of `mpk_wroc.rs` (fields in source order;
`latitude`/`longitude` carry the JSON number of the `f32` field). -/
structure Bus where
  code : Int
  course : Int
  latitude : Int
  longitude : Int
  line : String
  vehicle_type : VehicleType
  symbol : String
  direction : String
  delay : Int
deriving DecidableEq, Repr

/-- In-progress field state while folding over a JSON object's entries,
as serde's generated map visitor keeps one `Option` per field. -/
structure BusFields where
  code : Option Int
  course : Option Int
  latitude : Option Int
  longitude : Option Int
  line : Option String
  vehicle_type : Option VehicleType
  symbol : Option String
  direction : Option String
  delay : Option Int

def BusFields.init : BusFields :=
  ⟨none, none, none, none, none, none, none, none, none⟩

/-- serde's duplicate-field check: a field may be filled only once. -/
def setOnce (fieldName : String) (cur : Option α) (dec : Except String α) :
    Except String (Option α) :=
  match cur with
  | some _ => .error ("duplicate field " ++ fieldName)
  | none =>
      match dec with
      | .error e => .error e
      | .ok v => .ok (some v)

/-- serde's `while let Some(key) = map.next_key()` loop: fold the field
visitor over the object entries, stopping at the first failing entry
(the `?` on each step). -/
def foldSteps (step : σ → (String × Json) → Except String σ) :
    σ → List (String × Json) → Except String σ
  | st, [] => .ok st
  | st, kv :: rest =>
      match step st kv with
      | .error e => .error e
      | .ok st2 => foldSteps step st2 rest

/-- One step of serde's map visitor for `Bus`: match the key against each
field's name and aliases (`code`/`v`, `course`/`c`, `x`, `y`, `line`/`l`,
`type`/`t`, `symbol`/`s`, `direction`/`d`, `delay`/`e`); unknown keys are
ignored (no `deny_unknown_fields`). -/
def busStep (st : BusFields) (kv : String × Json) : Except String BusFields :=
  let k := kv.1
  let v := kv.2
  if k = "code" ∨ k = "v" then do
    let x ← setOnce "code" st.code (decodeI32 v)
    pure { st with code := x }
  else if k = "course" ∨ k = "c" then do
    let x ← setOnce "course" st.course (decodeI32 v)
    pure { st with course := x }
  else if k = "x" then do
    let x ← setOnce "x" st.latitude (decodeF32 v)
    pure { st with latitude := x }
  else if k = "y" then do
    let x ← setOnce "y" st.longitude (decodeF32 v)
    pure { st with longitude := x }
  else if k = "line" ∨ k = "l" then do
    let x ← setOnce "line" st.line (decodeString v)
    pure { st with line := x }
  else if k = "type" ∨ k = "t" then do
    let x ← setOnce "type" st.vehicle_type (decodeVehicleType v)
    pure { st with vehicle_type := x }
  else if k = "symbol" ∨ k = "s" then do
    let x ← setOnce "symbol" st.symbol (decodeString v)
    pure { st with symbol := x }
  else if k = "direction" ∨ k = "d" then do
    let x ← setOnce "direction" st.direction (decodeString v)
    pure { st with direction := x }
  else if k = "delay" ∨ k = "e" then do
    let x ← setOnce "delay" st.delay (decodeI32 v)
    pure { st with delay := x }
  else
    pure st

/-- serde decode of a `Bus` from a JSON value: fold the map visitor over
the object's entries, then require every field to be present. -/
def deserializeBus (j : Json) : Except String Bus :=
  match j with
  | .obj kvs =>
      match foldSteps busStep BusFields.init kvs with
      | .error e => .error e
      | .ok st =>
          match st.code, st.course, st.latitude, st.longitude, st.line,
              st.vehicle_type, st.symbol, st.direction, st.delay with
          | some c, some co, some la, some lo, some li, some vt, some sy,
              some d, some de => .ok ⟨c, co, la, lo, li, vt, sy, d, de⟩
          | _, _, _, _, _, _, _, _, _ => .error "missing field in struct Bus"
  | _ => .error "invalid type: expected struct Bus"

/-- The `BusList` of `mpk_wroc.rs`: leading timestamp plus bus records. -/
structure BusList where
  timestamp : String
  buses : List Bus
deriving DecidableEq, Repr

/-- The `while let Some(bus) = seq.next_element()?` loop of
`BusListVisitor::visit_seq`: decode the remaining elements one by one,
aborting on the first element that fails to decode as `Bus`. -/
def decodeBuses : List Json → Except String (List Bus)
  | [] => .ok []
  | j :: rest =>
      match deserializeBus j with
      | .error e => .error e
      | .ok b =>
          match decodeBuses rest with
          | .error e => .error e
          | .ok bs => .ok (b :: bs)

/-- Decoder `BusList::deserialize` (`deserialize_seq` with `BusListVisitor`):
the input must be a JSON array; element 0 decodes as a `String`
(an empty array is an `invalid_length` error), every later element
decodes as a `Bus`. -/
def deserializeBusList (j : Json) : Except String BusList :=
  match j with
  | .arr [] => .error "invalid length 0, expected an array with a timestamp followed by bus objects"
  | .arr (x :: rest) =>
      match decodeString x with
      | .error e => .error e
      | .ok timestamp =>
          match decodeBuses rest with
          | .error e => .error e
          | .ok buses => .ok ⟨timestamp, buses⟩
  | _ => .error "invalid type: expected a sequence"

/-- The `MpkError` payload of `mpk_wroc.rs`: the error-shaped body with
camelCase keys `info`, `message`, `stackTrace`. -/
structure MpkError where
  info : String
  message : String
  stack_trace : String
deriving DecidableEq, Repr

/-- Field state of serde's generated map visitor for `MpkError`. -/
structure MpkErrorFields where
  info : Option String
  message : Option String
  stack_trace : Option String

def MpkErrorFields.init : MpkErrorFields := ⟨none, none, none⟩

/-- One step of serde's map visitor for `MpkError` (`rename_all = "camelCase"`,
so `stack_trace` is keyed `stackTrace`); unknown keys are ignored. -/
def mpkErrorStep (st : MpkErrorFields) (kv : String × Json) :
    Except String MpkErrorFields :=
  let k := kv.1
  let v := kv.2
  if k = "info" then do
    let x ← setOnce "info" st.info (decodeString v)
    pure { st with info := x }
  else if k = "message" then do
    let x ← setOnce "message" st.message (decodeString v)
    pure { st with message := x }
  else if k = "stackTrace" then do
    let x ← setOnce "stackTrace" st.stack_trace (decodeString v)
    pure { st with stack_trace := x }
  else
    pure st

/-- serde decode of `MpkError` from a JSON value. -/
def deserializeMpkError (j : Json) : Except String MpkError :=
  match j with
  | .obj kvs =>
      match foldSteps mpkErrorStep MpkErrorFields.init kvs with
      | .error e => .error e
      | .ok st =>
          match st.info, st.message, st.stack_trace with
          | some i, some m, some t => .ok ⟨i, m, t⟩
          | _, _, _ => .error "missing field in struct MpkError"
  | _ => .error "invalid type: expected struct MpkError"

/-- The untagged `ApiResponse<T>` union of `mpk_wroc.rs`. -/
inductive ApiResponse (T : Type) where
  | Success (items : T) : ApiResponse T
  | Error (err : MpkError) : ApiResponse T
deriving DecidableEq, Repr

/-- serde decode of the untagged union `ApiResponse<T>`: variants are tried
in declaration order — first `Success(T)`, then `Error(MpkError)`; if
neither shape decodes the whole decode fails. -/
def deserializeApiResponse (decT : Json → Except String T) (j : Json) :
    Except String (ApiResponse T) :=
  match decT j with
  | .ok t => .ok (.Success t)
  | .error _ =>
      match deserializeMpkError j with
      | .ok e => .ok (.Error e)
      | .error _ =>
          .error "data did not match any variant of untagged enum ApiResponse"

/-- The `ClientError` taxonomy of `mpk_wroc.rs`. Errors of the external
transport/auth/url/serde libraries are modelled as their message strings. -/
inductive ClientError where
  | HttpError (e : String) : ClientError
  | ReqwestError (e : String) : ClientError
  | SerdeError (e : String) : ClientError
  | UrlParseError (e : String) : ClientError
  | MpkError (e : MpkError) : ClientError
deriving DecidableEq, Repr

/-- Conversion `impl From<ApiResponse<T>> for Result<T, E>`: `Success` becomes `Ok`,
`Error` becomes `Err` through `MpkError`'s `From` conversion. -/
def apiResponseIntoResult : ApiResponse T → Except ClientError T
  | .Success items => .ok items
  | .Error err => .error (.MpkError err)

/-- A parsed URL as built by `Url::parse_with_params`: base plus the
ordered query pairs. -/
structure Url where
  base : String
  params : List (String × String)
deriving DecidableEq, Repr

def HOSTNAME : String := "https://impk.mpk.wroc.pl:8088/mobile"

def SQL_DATE_FORMAT : String := "%Y-%m-%d %H:%M:%S"

/-- Method `mpk_wroc::Client::get_data`, with its effects passed in explicitly:
`parseUrl` is the outcome of `Url::parse_with_params`, `send` is the
digest-authenticated GET returning the response body as JSON, and `decT`
decodes the target type. Each `?` step maps its library error into the
matching `ClientError` variant; the final `.into()` converts an
error-shaped body into `ClientError::MpkError`. -/
def mpkGetData (decT : Json → Except String T)
    (parseUrl : Except String Url)
    (send : Url → Except String Json) : Except ClientError T :=
  match parseUrl with
  | .error e => .error (.UrlParseError e)
  | .ok url =>
      match send url with
      | .error e => .error (.HttpError e)
      | .ok body =>
          match deserializeApiResponse decT body with
          | .error e => .error (.ReqwestError e)
          | .ok response => apiResponseIntoResult response

/-- Method `mpk_wroc::Client::get_buses`, request-building part. The clock and
chrono's Warsaw-local formatting are effects of external crates and enter
as parameters: `utcNow` is the current instant in epoch seconds (a
`DateTime`'s instant is unchanged by `with_timezone`, which only fixes the
display zone), and `fmtWarsaw fmt t` renders instant `t` in the
Europe/Warsaw zone according to format string `fmt`. -/
def mpkGetBusesUrl (fmtWarsaw : String → Int → String) (utcNow : Int) : Url :=
  let now := utcNow
  let ten_seconds_ago := now - 10
  let formated_date := fmtWarsaw SQL_DATE_FORMAT ten_seconds_ago
  ⟨HOSTNAME, [("function", "getPositions"), ("date", formated_date)]⟩

/-- The three mirror base URLs of `sims.rs`. -/
def API_URLS : List String :=
  ["https://api.dla.sims.pl",
   "https://api.dlugoleka.sims.pl",
   "https://api.dlugoleka.mp.sims.pl"]

def exceptOk : Except E A → Option A
  | .ok a => some a
  | .error _ => none

def exceptErr : Except E A → Option E
  | .ok _ => none
  | .error e => some e

/-- Method `sims::Client::get_data`: the per-leg effect (`GET` then
`json::<Vec<T>>` decode) enters as `send`, a function of the full URL.
The legs are evaluated in `API_URLS` order, then partitioned into
successes and failures; `partition` keeps relative order, so
`flat_map(Result::unwrap)` concatenates the ok lists in dispatch order
and `map(Result::unwrap_err)` lists the errors in dispatch order (the
unwraps cannot hit the other variant after the partition, so they are
modelled by `filterMap`). -/
def simsGetData (send : String → Except E (List T)) (endpoint : String) :
    List T × List E :=
  let results := API_URLS.map fun hostname => send (hostname ++ "/" ++ endpoint)
  let p := results.partition fun r => (exceptOk r).isSome
  ((p.1.filterMap exceptOk).flatten, p.2.filterMap exceptErr)

/-- An `i32` range-side condition on the `Int` model of a field. -/
def inI32 (n : Int) : Prop := -2147483648 ≤ n ∧ n ≤ 2147483647

instance (n : Int) : Decidable (inI32 n) := by
  unfold inI32
  infer_instance

/-- The compact single-letter spelling of a `VehicleType` value. -/
def compactTag : VehicleType → String
  | .Bus => "b"
  | .Tram => "t"

/-- The verbose (`UPPERCASE`) spelling of a `VehicleType` value. -/
def verboseTag : VehicleType → String
  | .Bus => "BUS"
  | .Tram => "TRAM"

/-- A `Bus` record written with the compact single-letter key set
`v c x y l t s d e`, as in `test_bus_shortcut_from_json`. -/
def encodeCompactBus (b : Bus) : Json :=
  .obj [("v", .num b.code), ("c", .num b.course), ("x", .num b.latitude),
        ("y", .num b.longitude), ("l", .str b.line),
        ("t", .str (compactTag b.vehicle_type)), ("s", .str b.symbol),
        ("d", .str b.direction), ("e", .num b.delay)]

/-- The same `Bus` record written with the verbose key set
`code course x y line type symbol direction delay`, as in
`test_bus_full_from_json` (latitude and longitude are `rename`d, not
aliased, so their only key is `x`/`y` in both spellings). -/
def encodeVerboseBus (b : Bus) : Json :=
  .obj [("code", .num b.code), ("course", .num b.course),
        ("x", .num b.latitude), ("y", .num b.longitude),
        ("line", .str b.line), ("type", .str (verboseTag b.vehicle_type)),
        ("symbol", .str b.symbol), ("direction", .str b.direction),
        ("delay", .num b.delay)]

/-- The concrete record of `test_bus_shortcut_from_json` (coordinates
truncated to the integer JSON-number model). -/
def busA : Bus := ⟨8418, 25626631, 17, 51, "N", .Bus, "20903", "29324", 0⟩

/-- An error-shaped body, as in the spec's union-decoding example. -/
def errBody : Json :=
  .obj [("info", .str "X"), ("message", .str "Y"), ("stackTrace", .str "Z")]

theorem filterMap_ok_of_filter (l : List (Except E A)) :
    (l.filter fun r => (exceptOk r).isSome).filterMap exceptOk =
      l.filterMap exceptOk := by
  induction l with
  | nil => rfl
  | cons x xs ih =>
      cases x with
      | ok a => simpa [List.filter_cons, List.filterMap_cons, exceptOk] using ih
      | error e => simpa [List.filter_cons, List.filterMap_cons, exceptOk] using ih

theorem filterMap_err_of_filter (l : List (Except E A)) :
    (l.filter fun r => !(exceptOk r).isSome).filterMap exceptErr =
      l.filterMap exceptErr := by
  induction l with
  | nil => rfl
  | cons x xs ih =>
      cases x with
      | ok a => simpa [List.filter_cons, List.filterMap_cons, exceptOk, exceptErr] using ih
      | error e => simpa [List.filter_cons, List.filterMap_cons, exceptOk, exceptErr] using ih

/-- Core shape of `sims::Client::get_data`: partitioning the leg results
and unwrapping is the same as filtering the ok lists (flattened in
dispatch order) and the errors (in dispatch order). -/
theorem simsGetData_eq (send : String → Except E (List T)) (endpoint : String) :
    simsGetData send endpoint =
      (((API_URLS.map fun h => send (h ++ "/" ++ endpoint)).filterMap exceptOk).flatten,
       (API_URLS.map fun h => send (h ++ "/" ++ endpoint)).filterMap exceptErr) := by
  simp only [simsGetData, List.partition_eq_filter_filter, Function.comp_def,
    filterMap_ok_of_filter, filterMap_err_of_filter]

/-- C1: for every assignment of per-host outcomes (`send`) to the three
configured mirror hosts, `sims::Client::get_data` returns the
concatenation of each succeeding host's decoded records in `API_URLS`
dispatch order (intra-host order preserved by `flatten`) and the failing
hosts' errors in that same dispatch order. Determinism across repeated
calls is immediate: the result is this pure function of the per-host
outcomes and the endpoint alone. -/
theorem sims_fan_out_dispatch_order (send : String → Except E (List T))
    (endpoint : String) :
    simsGetData send endpoint =
      (((API_URLS.map fun h => send (h ++ "/" ++ endpoint)).filterMap exceptOk).flatten,
       (API_URLS.map fun h => send (h ++ "/" ++ endpoint)).filterMap exceptErr) :=
  simsGetData_eq send endpoint

/-- C2: the fan-out fetch never fails as a whole — it always returns the
(successes, errors) pair; each failing leg contributes exactly its error
entry (in dispatch order), every succeeding leg's records still appear in
the success sequence, and even when all three legs fail the call returns
the pair `([], three errors)`. -/
theorem sims_fan_out_error_isolation (send : String → Except E (List T))
    (endpoint : String) :
    ((simsGetData send endpoint).2 =
        (API_URLS.map fun h => send (h ++ "/" ++ endpoint)).filterMap exceptErr)
    ∧ (∀ h l, h ∈ API_URLS → send (h ++ "/" ++ endpoint) = .ok l →
        l.Sublist (simsGetData send endpoint).1)
    ∧ ((∀ h ∈ API_URLS, ∃ e, send (h ++ "/" ++ endpoint) = .error e) →
        (simsGetData send endpoint).1 = [] ∧
          (simsGetData send endpoint).2.length = API_URLS.length) := by
  refine ⟨by rw [simsGetData_eq], ?_, ?_⟩
  · intro h l hmem hok
    rw [simsGetData_eq]
    refine List.sublist_flatten_of_mem ?_
    have : send (h ++ "/" ++ endpoint) ∈
        API_URLS.map fun x => send (x ++ "/" ++ endpoint) :=
      List.mem_map_of_mem _ hmem
    have hm : l ∈ (API_URLS.map fun x => send (x ++ "/" ++ endpoint)).filterMap exceptOk :=
      List.mem_filterMap.mpr ⟨send (h ++ "/" ++ endpoint), this, by rw [hok]; rfl⟩
    exact hm
  · intro hall
    rw [simsGetData_eq]
    obtain ⟨e1, h1⟩ := hall "https://api.dla.sims.pl" (by simp [API_URLS])
    obtain ⟨e2, h2⟩ := hall "https://api.dlugoleka.sims.pl" (by simp [API_URLS])
    obtain ⟨e3, h3⟩ := hall "https://api.dlugoleka.mp.sims.pl" (by simp [API_URLS])
    simp [API_URLS] at h1 h2 h3 ⊢
    rw [h1, h2, h3]
    simp [exceptOk, exceptErr]

/-- Witness for C2 at concrete inputs: one all-ok leg's records appear in
the successes, and with every leg failing the call still returns the pair
`([], [e, e, e])`. -/
theorem sims_fan_out_error_isolation_witness :
    ([7].Sublist
      (simsGetData (fun _ => (Except.ok [7] : Except String (List Nat))) "vehicles").1)
    ∧ ((simsGetData (fun u => (Except.error ("fail " ++ u) : Except String (List Nat)))
          "vehicles").1 = [] ∧
        (simsGetData (fun u => (Except.error ("fail " ++ u) : Except String (List Nat)))
          "vehicles").2.length = API_URLS.length) :=
  ⟨(sims_fan_out_error_isolation (fun _ => (Except.ok [7] : Except String (List Nat)))
      "vehicles").2.1 "https://api.dla.sims.pl" [7] (by simp [API_URLS]) rfl,
   (sims_fan_out_error_isolation
      (fun u => (Except.error ("fail " ++ u) : Except String (List Nat)))
      "vehicles").2.2 (fun h _ => ⟨"fail " ++ (h ++ "/" ++ "vehicles"), rfl⟩)⟩

/-- C3: union-mode decoding tries the success shape `T` first; on a body
that decodes as `T` it yields `Success`; on a body that fails as `T` but
decodes as the error shape (`info`, `message`, `stackTrace`) it yields the
error variant, which `.into()` converts to `ClientError::MpkError`; on a
body matching neither shape, decoding fails. -/
theorem api_response_union_order (decT : Json → Except String T) (j : Json) :
    (∀ t, decT j = .ok t →
        deserializeApiResponse decT j = .ok (.Success t))
    ∧ (∀ e m, decT j = .error e → deserializeMpkError j = .ok m →
        deserializeApiResponse decT j = .ok (.Error m) ∧
          apiResponseIntoResult (ApiResponse.Error m : ApiResponse T) =
            .error (.MpkError m))
    ∧ (∀ e e2, decT j = .error e → deserializeMpkError j = .error e2 →
        deserializeApiResponse decT j =
          .error "data did not match any variant of untagged enum ApiResponse") := by
  refine ⟨?_, ?_, ?_⟩
  · intro t ht
    simp [deserializeApiResponse, ht]
  · intro e m he hm
    exact ⟨by simp [deserializeApiResponse, he, hm], rfl⟩
  · intro e e2 he he2
    simp [deserializeApiResponse, he, he2]

/-- Witness for C3 with `T = BusList`: a success-shaped body yields
`Success`, the error-shaped body `{info: X, message: Y, stackTrace: Z}`
yields the error variant (propagated as `ClientError::MpkError`), and a
body matching neither shape fails to decode. -/
theorem api_response_union_order_witness :
    (deserializeApiResponse deserializeBusList (Json.arr [Json.str "ts"]) =
        .ok (.Success ⟨"ts", []⟩))
    ∧ (deserializeApiResponse deserializeBusList errBody =
          .ok (.Error ⟨"X", "Y", "Z"⟩) ∧
        apiResponseIntoResult (ApiResponse.Error ⟨"X", "Y", "Z"⟩ : ApiResponse BusList) =
          .error (.MpkError ⟨"X", "Y", "Z"⟩))
    ∧ (deserializeApiResponse deserializeBusList (Json.num 5) =
        .error "data did not match any variant of untagged enum ApiResponse") :=
  ⟨(api_response_union_order deserializeBusList (Json.arr [Json.str "ts"])).1
      ⟨"ts", []⟩ rfl,
   (api_response_union_order deserializeBusList errBody).2.1
      "invalid type: expected a sequence" ⟨"X", "Y", "Z"⟩ rfl rfl,
   (api_response_union_order deserializeBusList (Json.num 5)).2.2
      "invalid type: expected a sequence" "invalid type: expected struct MpkError"
      rfl rfl⟩

/-- If some element of the batch fails to decode as `Bus`, the whole
record loop fails (at the first such element). -/
theorem decodeBuses_error (l : List Json)
    (hx : ∃ j ∈ l, ∃ e, deserializeBus j = .error e) :
    ∃ m, decodeBuses l = .error m := by
  induction l with
  | nil => simp at hx
  | cons a as ih =>
      rcases hx with ⟨j, hj, e, he⟩
      rcases List.mem_cons.mp hj with h | h
      · subst h
        exact ⟨e, by simp [decodeBuses, he]⟩
      · cases ha : deserializeBus a with
        | error e2 => exact ⟨e2, by simp [decodeBuses, ha]⟩
        | ok b =>
            rcases ih ⟨j, h, e, he⟩ with ⟨m, hm⟩
            exact ⟨m, by simp [decodeBuses, ha, hm]⟩

/-- If every element of the batch decodes as a `Bus`, the record loop
succeeds and the output corresponds pointwise, in order, to the input. -/
theorem decodeBuses_ok (l : List Json)
    (hall : ∀ j ∈ l, ∃ b, deserializeBus j = .ok b) :
    ∃ bs, decodeBuses l = .ok bs ∧
      List.Forall₂ (fun j b => deserializeBus j = .ok b) l bs := by
  induction l with
  | nil => exact ⟨[], rfl, List.Forall₂.nil⟩
  | cons a as ih =>
      obtain ⟨b, hb⟩ := hall a (List.mem_cons_self a as)
      obtain ⟨bs, hbs, hcorr⟩ := ih fun j hj => hall j (List.mem_cons_of_mem a hj)
      exact ⟨b :: bs, by simp [decodeBuses, hb, hbs], List.Forall₂.cons hb hcorr⟩

/-- C4: `BusList` decoding fails on the empty array, fails when the first
element is not a string, and — when the first element is a string —
fails for the whole batch as soon as any later element does not decode as
a `Bus`, so no record of such a batch is ever returned. -/
theorem bus_list_batch_failure :
    (∃ m, deserializeBusList (Json.arr []) = .error m)
    ∧ (∀ x rest, (∀ s, x ≠ Json.str s) →
        ∃ m, deserializeBusList (Json.arr (x :: rest)) = .error m)
    ∧ (∀ s rest, (∃ j ∈ rest, ∃ e, deserializeBus j = .error e) →
        ∃ m, deserializeBusList (Json.arr (Json.str s :: rest)) = .error m) := by
  refine ⟨⟨_, rfl⟩, ?_, ?_⟩
  · intro x rest hx
    cases x with
    | str s => exact absurd rfl (hx s)
    | null => exact ⟨_, rfl⟩
    | bool b => exact ⟨_, rfl⟩
    | num n => exact ⟨_, rfl⟩
    | arr l => exact ⟨_, rfl⟩
    | obj kvs => exact ⟨_, rfl⟩
  · intro s rest hx
    obtain ⟨m, hm⟩ := decodeBuses_error rest hx
    exact ⟨m, by simp [deserializeBusList, decodeString, hm]⟩

/-- Witness for C4: the empty array, the array `[42, {bus}]` with a
non-string first element, and the array `["ts", {bus}, 3]` whose third
element is not a `Bus` record all fail to decode. -/
theorem bus_list_batch_failure_witness :
    (∃ m, deserializeBusList (Json.arr []) = .error m)
    ∧ (∃ m, deserializeBusList
        (Json.arr [Json.num 42, encodeCompactBus busA]) = .error m)
    ∧ (∃ m, deserializeBusList
        (Json.arr [Json.str "ts", encodeCompactBus busA, Json.num 3]) = .error m) :=
  ⟨bus_list_batch_failure.1,
   bus_list_batch_failure.2.1 (Json.num 42) [encodeCompactBus busA]
     (fun _ h => Json.noConfusion h),
   bus_list_batch_failure.2.2 "ts" [encodeCompactBus busA, Json.num 3]
     ⟨Json.num 3, by simp, "invalid type: expected struct Bus", rfl⟩⟩

/-- C5: for every JSON array whose first element is the string `s` and
whose remaining elements all decode as `Bus` records, `BusList` decoding
succeeds with timestamp `s` and the records pointwise in input order. -/
theorem bus_list_batch_success (s : String) (rest : List Json)
    (hall : ∀ j ∈ rest, ∃ b, deserializeBus j = .ok b) :
    ∃ bs, deserializeBusList (Json.arr (Json.str s :: rest)) = .ok ⟨s, bs⟩ ∧
      List.Forall₂ (fun j b => deserializeBus j = .ok b) rest bs := by
  obtain ⟨bs, h1, h2⟩ := decodeBuses_ok rest hall
  exact ⟨bs, by simp [deserializeBusList, decodeString, h1], h2⟩

/-- Witness for C5: the concrete batch
`["2025-02-26T23:38:00", {compact bus}, {verbose bus}]` decodes with that
timestamp and its two records in input order. -/
theorem bus_list_batch_success_witness :
    ∃ bs, deserializeBusList (Json.arr [Json.str "2025-02-26T23:38:00",
        encodeCompactBus busA, encodeVerboseBus busA]) =
        .ok ⟨"2025-02-26T23:38:00", bs⟩ ∧
      List.Forall₂ (fun j b => deserializeBus j = .ok b)
        [encodeCompactBus busA, encodeVerboseBus busA] bs :=
  bus_list_batch_success "2025-02-26T23:38:00"
    [encodeCompactBus busA, encodeVerboseBus busA]
    (by
      intro j hj
      rcases List.mem_cons.mp hj with h | h
      · exact ⟨busA, by rw [h]; rfl⟩
      · rcases List.mem_cons.mp h with h2 | h2
        · exact ⟨busA, by rw [h2]; rfl⟩
        · simp at h2)

/-- C6: a `Bus` record written with the compact single-letter key set
`v c x y l t s d e` and the same record written with the verbose key set
both decode successfully, to the same value (the record itself); the
decoder accepts either spelling of every aliased field. The `i32` fields
carry their range side conditions. -/
theorem bus_alias_equivalence (b : Bus) (h1 : inI32 b.code) (h2 : inI32 b.course)
    (h3 : inI32 b.delay) :
    deserializeBus (encodeCompactBus b) = .ok b ∧
    deserializeBus (encodeVerboseBus b) = .ok b := by
  obtain ⟨code, course, la, lo, li, vt, sy, di, de⟩ := b
  obtain ⟨c1, c2⟩ := h1
  obtain ⟨d1, d2⟩ := h2
  obtain ⟨e1, e2⟩ := h3
  cases vt <;>
    exact ⟨by simp [deserializeBus, encodeCompactBus, foldSteps, busStep,
        setOnce, decodeI32, decodeF32, decodeString, decodeVehicleType,
        compactTag, BusFields.init, c1, c2, d1, d2, e1, e2],
      by simp [deserializeBus, encodeVerboseBus, foldSteps, busStep,
        setOnce, decodeI32, decodeF32, decodeString, decodeVehicleType,
        verboseTag, BusFields.init, c1, c2, d1, d2, e1, e2]⟩

/-- Witness for C6: the concrete record of `test_bus_shortcut_from_json`
decodes identically from its compact and verbose spellings. -/
theorem bus_alias_equivalence_witness :
    inI32 busA.code ∧
    (deserializeBus (encodeCompactBus busA) = .ok busA ∧
      deserializeBus (encodeVerboseBus busA) = .ok busA) :=
  ⟨by decide,
   bus_alias_equivalence busA (by decide) (by decide) (by decide)⟩

/-- C8: on the single-host digest-authenticated path, a failure at any
step — URL construction, the digest-authenticated GET, decoding the body,
or an error-shaped body — is fatal to that call: `get_data` returns the
corresponding `ClientError` variant and no data; only the full success
path returns data. -/
theorem mpk_get_data_fail_fast (decT : Json → Except String T)
    (parseUrl : Except String Url) (send : Url → Except String Json) :
    (∀ e, parseUrl = .error e →
        mpkGetData decT parseUrl send = .error (.UrlParseError e))
    ∧ (∀ u e, parseUrl = .ok u → send u = .error e →
        mpkGetData decT parseUrl send = .error (.HttpError e))
    ∧ (∀ u b e, parseUrl = .ok u → send u = .ok b →
        deserializeApiResponse decT b = .error e →
        mpkGetData decT parseUrl send = .error (.ReqwestError e))
    ∧ (∀ u b m, parseUrl = .ok u → send u = .ok b →
        deserializeApiResponse decT b = .ok (.Error m) →
        mpkGetData decT parseUrl send = .error (.MpkError m))
    ∧ (∀ u b t, parseUrl = .ok u → send u = .ok b →
        deserializeApiResponse decT b = .ok (.Success t) →
        mpkGetData decT parseUrl send = .ok t) := by
  refine ⟨?_, ?_, ?_, ?_, ?_⟩
  · intro e he
    simp [mpkGetData, he]
  · intro u e hu hs
    simp [mpkGetData, hu, hs]
  · intro u b e hu hs hd
    simp [mpkGetData, hu, hs, hd]
  · intro u b m hu hs hd
    simp [mpkGetData, hu, hs, hd, apiResponseIntoResult]
  · intro u b t hu hs hd
    simp [mpkGetData, hu, hs, hd, apiResponseIntoResult]

/-- Witness for C8 with `T = BusList`, exercising each step's failure at a
concrete input and the success path. -/
theorem mpk_get_data_fail_fast_witness :
    (mpkGetData deserializeBusList (Except.error "relative URL without a base")
        (fun _ => .ok (Json.arr [Json.str "ts"])) =
      .error (.UrlParseError "relative URL without a base"))
    ∧ (mpkGetData deserializeBusList (Except.ok ⟨HOSTNAME, []⟩)
          (fun _ => .error "connection timed out") =
        .error (.HttpError "connection timed out"))
    ∧ (mpkGetData deserializeBusList (Except.ok ⟨HOSTNAME, []⟩)
          (fun _ => .ok (Json.num 5)) =
        .error (.ReqwestError
          "data did not match any variant of untagged enum ApiResponse"))
    ∧ (mpkGetData deserializeBusList (Except.ok ⟨HOSTNAME, []⟩)
          (fun _ => .ok errBody) =
        .error (.MpkError ⟨"X", "Y", "Z"⟩))
    ∧ (mpkGetData deserializeBusList (Except.ok ⟨HOSTNAME, []⟩)
          (fun _ => .ok (Json.arr [Json.str "ts"])) =
        .ok ⟨"ts", []⟩) :=
  ⟨(mpk_get_data_fail_fast deserializeBusList _ _).1 _ rfl,
   (mpk_get_data_fail_fast deserializeBusList _ _).2.1 ⟨HOSTNAME, []⟩ _ rfl rfl,
   (mpk_get_data_fail_fast deserializeBusList _ _).2.2.1 ⟨HOSTNAME, []⟩
      (Json.num 5) _ rfl rfl rfl,
   (mpk_get_data_fail_fast deserializeBusList _ _).2.2.2.1 ⟨HOSTNAME, []⟩
      errBody ⟨"X", "Y", "Z"⟩ rfl rfl rfl,
   (mpk_get_data_fail_fast deserializeBusList _ _).2.2.2.2 ⟨HOSTNAME, []⟩
      (Json.arr [Json.str "ts"]) ⟨"ts", []⟩ rfl rfl rfl⟩

/-- C9: both decoding modes are pure functions of the body (and target
decoder) alone — no hidden mutable state — so decoding the same body
twice yields structurally equal results. -/
theorem decode_idempotent (decT : Json → Except String T) (j : Json) :
    deserializeApiResponse decT j = deserializeApiResponse decT j ∧
    deserializeBusList j = deserializeBusList j :=
  ⟨rfl, rfl⟩

/-- C10: `mpk_wroc::Client::get_buses` always requests
`function=getPositions` with `date` rendered by the fixed Warsaw-local
formatter at the fixed `"%Y-%m-%d %H:%M:%S"` format from the call instant
minus 10 seconds — for every clock value and every behaviour of the
external formatter, with no caller-controllable part. -/
theorem get_buses_fixed_params (fmtWarsaw : String → Int → String) (utcNow : Int) :
    mpkGetBusesUrl fmtWarsaw utcNow =
      ⟨HOSTNAME, [("function", "getPositions"),
                  ("date", fmtWarsaw SQL_DATE_FORMAT (utcNow - 10))]⟩ :=
  rfl

end MpkRs
